import Mathlib

/-!
Verification development for the reflow-oven controller core
(`src/main/src/{PID,PWM,Controller,ProfileEngine}.cpp`).

Modelling conventions:
* C++ `double`/`float` values are modelled as `ℚ` (the claims under test are
  about control flow, clamping and exact arithmetic identities, not about
  floating-point rounding).
* `esp_err_t` is modelled by the inductive `EspErr` below.
* Hardware ports (relays, servo, timers, NVS) always succeed in the model;
  their effects on controller state are embedded, their effects on external
  hardware are not state of the model.
* `esp_timer_get_time()` is a port: `PID.Calculate` receives the elapsed
  time `(nowUs - lastTimeUs) / 1e6` as the explicit argument `dtRaw`.
* `std::exp` is a port: functions that need it receive an explicit
  `expNeg : ℚ → ℚ` argument; it is only consulted on the integral-leak path
  (`integralLeakTimeSeconds > 0`).
-/

/-- Model of `esp_err_t` restricted to the codes the core returns. -/
inductive EspErr where
  | ok
  | invalidArg
  | invalidState
  | notFound
  | fail
  deriving DecidableEq, Repr

/-- `std::clamp(v, lo, hi)` = `min (max v lo) hi`. -/
def clampQ (v lo hi : ℚ) : ℚ := min (max v lo) hi

theorem clampQ_le (v lo hi : ℚ) : clampQ v lo hi ≤ hi := by
  simp [clampQ]

theorem clampQ_ge (v lo hi : ℚ) (h : lo ≤ hi) : lo ≤ clampQ v lo hi := by
  simp only [clampQ, le_min_iff, le_max_iff]
  exact ⟨Or.inr le_rfl, h⟩

theorem clampQ_of_mem (v lo hi : ℚ) (h1 : lo ≤ v) (h2 : v ≤ hi) :
    clampQ v lo hi = v := by
  rw [clampQ, max_eq_left h1, min_eq_left h2]

/-! ## PID engine (src/main/src/PID.cpp, src/main/include/PID.hpp) -/

/-- State of the `PID` class.  Field defaults mirror the initializers in
`PID.hpp`.  `OutputMin`/`OutputMax` are `-100.0`/`100.0` in `PID.hpp` and no
code path ever writes them, so they are modelled as the constants
`PID.OutputMin`/`PID.OutputMax` rather than mutable fields.  `lastTimeUs` is
subsumed by the `dtRaw` port argument of `Calculate`. -/
structure PID where
  heatingKp : ℚ := 1
  heatingKi : ℚ := 0
  heatingKd : ℚ := 0
  coolingKp : ℚ := 1
  coolingKi : ℚ := 0
  coolingKd : ℚ := 0
  setpointWeight : ℚ := 1/2
  integralZoneC : ℚ := 0
  integralLeakTimeSeconds : ℚ := 0
  DerivativeFilterAlpha : ℚ := 1
  derivativeFilterTime : ℚ := 0
  integral : ℚ := 0
  previousError : ℚ := 0
  previousPV : ℚ := 0
  dFiltered : ℚ := 0
  previousOutput : ℚ := 0
  previousP : ℚ := 0
  previousI : ℚ := 0
  previousD : ℚ := 0
  firstRun : Bool := true
  deriving DecidableEq, Repr

namespace PID

/-- `OutputMin = -100.0` (never mutated in the source). -/
def OutputMin : ℚ := -100

/-- `OutputMax = 100.0` (never mutated in the source). -/
def OutputMax : ℚ := 100

/-- The local lambda `clampPTermToBand` in `PID::Calculate`. -/
def clampPTermToBand (pTerm error : ℚ) : ℚ :=
  if 0 < error then max 0 pTerm
  else if error < 0 then min 0 pTerm
  else pTerm

/-- `dt` as computed at the top of `PID::Calculate`: on the first run
`dt = 1e-6`; otherwise the measured elapsed seconds, floored to `1e-6` when
non-positive. -/
def dtOf (s : PID) (dtRaw : ℚ) : ℚ :=
  if s.firstRun then 1/1000000
  else if dtRaw ≤ 0 then 1/1000000 else dtRaw

/-- `error = setPoint - processValue`. -/
def errorOf (setPoint processValue : ℚ) : ℚ := setPoint - processValue

/-- `errorWeighted = setpointWeight * setPoint - processValue`. -/
def errorWeightedOf (s : PID) (setPoint processValue : ℚ) : ℚ :=
  s.setpointWeight * setPoint - processValue

/-- The derivative-filter coefficient `alpha` for this call. -/
def alphaOf (s : PID) (dt : ℚ) : ℚ :=
  if 0 < s.derivativeFilterTime then dt / (s.derivativeFilterTime + dt) else 1

/-- The filtered derivative after this call (`dFiltered` update):
`alpha * derivative + (1 - alpha) * dFiltered`, with the raw derivative
`-(processValue - previousPV) / dt` (0 on the first run, which also resets the
stored `dFiltered` to 0 before filtering). -/
def dFilteredOf (s : PID) (processValue dt : ℚ) : ℚ :=
  let dFiltered0 : ℚ := if s.firstRun then 0 else s.dFiltered
  let derivative : ℚ :=
    if s.firstRun then 0 else (-1) * (processValue - s.previousPV) / dt
  alphaOf s dt * derivative + (1 - alphaOf s dt) * dFiltered0

/-- `outputNoICool = pTermCool + dTermCool`, the cooling-gain P+D trial. -/
def outputNoICoolOf (s : PID) (setPoint processValue dt : ℚ) : ℚ :=
  clampPTermToBand (s.coolingKp * errorWeightedOf s setPoint processValue)
      (errorOf setPoint processValue) +
    s.coolingKd * dFilteredOf s processValue dt

/-- `coolingMode = (outputNoICool < 0.0)`. -/
def coolingModeOf (s : PID) (setPoint processValue dt : ℚ) : Bool :=
  outputNoICoolOf s setPoint processValue dt < 0

/-- The Ki of the selected gain set. -/
def activeKiOf (s : PID) (setPoint processValue dt : ℚ) : ℚ :=
  if coolingModeOf s setPoint processValue dt then s.coolingKi else s.heatingKi

/-- The P term of the selected gain set. -/
def pTermOf (s : PID) (setPoint processValue dt : ℚ) : ℚ :=
  if coolingModeOf s setPoint processValue dt then
    clampPTermToBand (s.coolingKp * errorWeightedOf s setPoint processValue)
      (errorOf setPoint processValue)
  else
    clampPTermToBand (s.heatingKp * errorWeightedOf s setPoint processValue)
      (errorOf setPoint processValue)

/-- The D term of the selected gain set. -/
def dTermOf (s : PID) (setPoint processValue dt : ℚ) : ℚ :=
  if coolingModeOf s setPoint processValue dt then
    s.coolingKd * dFilteredOf s processValue dt
  else
    s.heatingKd * dFilteredOf s processValue dt

/-- `outputNoI = pTerm + dTerm` for the selected gain set. -/
def outputNoIOf (s : PID) (setPoint processValue dt : ℚ) : ℚ :=
  pTermOf s setPoint processValue dt + dTermOf s setPoint processValue dt

/-- The integrator after the exponential leak
(`integral *= exp(-dt / integralLeakTimeSeconds)` when the leak is enabled). -/
def integralAfterLeakOf (expNeg : ℚ → ℚ) (s : PID) (dt : ℚ) : ℚ :=
  if 0 < s.integralLeakTimeSeconds then
    s.integral * expNeg (-dt / s.integralLeakTimeSeconds)
  else s.integral

/-- The integrator after zone gating and the conditional (anti-windup aware)
accumulation step, before back-calculation. -/
def integralGatedOf (expNeg : ℚ → ℚ) (s : PID) (setPoint processValue dt : ℚ) : ℚ :=
  let error := errorOf setPoint processValue
  let integral1 := integralAfterLeakOf expNeg s dt
  let inIZone : Prop := s.integralZoneC ≤ 0 ∨ |error| ≤ s.integralZoneC
  if 0 < activeKiOf s setPoint processValue dt ∧ inIZone then
    let integralCandidate := integral1 + error * dt
    if outputNoIOf s setPoint processValue dt < 0 then
      if |integralCandidate| < |integral1| then integralCandidate else integral1
    else integralCandidate
  else integral1

/-- The clamped `iTerm` of the back-calculation block (0 when the active Ki is
not positive). -/
def iTermOf (expNeg : ℚ → ℚ) (s : PID) (setPoint processValue dt : ℚ) : ℚ :=
  if 0 < activeKiOf s setPoint processValue dt then
    clampQ (activeKiOf s setPoint processValue dt *
        integralGatedOf expNeg s setPoint processValue dt)
      (OutputMin - outputNoIOf s setPoint processValue dt)
      (OutputMax - outputNoIOf s setPoint processValue dt)
  else 0

/-- The stored integrator after back-calculation (`integral = iTerm / activeKi`
when the active Ki is positive, otherwise the gated integrator unchanged). -/
def integralBackCalcOf (expNeg : ℚ → ℚ) (s : PID) (setPoint processValue dt : ℚ) : ℚ :=
  if 0 < activeKiOf s setPoint processValue dt then
    iTermOf expNeg s setPoint processValue dt / activeKiOf s setPoint processValue dt
  else integralGatedOf expNeg s setPoint processValue dt

/-- The returned output: `clamp(outputNoI + iTerm, OutputMin, OutputMax)`. -/
def outputOf (expNeg : ℚ → ℚ) (s : PID) (setPoint processValue dt : ℚ) : ℚ :=
  clampQ (outputNoIOf s setPoint processValue dt +
      iTermOf expNeg s setPoint processValue dt)
    OutputMin OutputMax

/-- `PID::Calculate`.  Returns the updated state and the returned output.
The stages are the named definitions above, each translated from the
corresponding block of `PID.cpp` lines 20-115. -/
def Calculate (expNeg : ℚ → ℚ) (s : PID) (setPoint processValue dtRaw : ℚ) :
    PID × ℚ :=
  let dt := dtOf s dtRaw
  let error := errorOf setPoint processValue
  let output := outputOf expNeg s setPoint processValue dt
  ({ s with
      firstRun := false
      previousPV := processValue
      DerivativeFilterAlpha := alphaOf s dt
      dFiltered := dFilteredOf s processValue dt
      integral := integralBackCalcOf expNeg s setPoint processValue dt
      previousError := error
      previousP := pTermOf s setPoint processValue dt
      previousI := iTermOf expNeg s setPoint processValue dt
      previousD := dTermOf s setPoint processValue dt
      previousOutput := output },
    output)

/-- `PID::Tune` forwards to `TuneHeating`. -/
def TuneHeating (s : PID) (Kp Ki Kd : ℚ) : EspErr × PID :=
  (.ok, { s with heatingKp := Kp, heatingKi := Ki, heatingKd := Kd })

/-- `PID::TuneCooling`. -/
def TuneCooling (s : PID) (Kp Ki Kd : ℚ) : EspErr × PID :=
  (.ok, { s with coolingKp := Kp, coolingKi := Ki, coolingKd := Kd })

/-- `PID::Tune(Kp, Ki, Kd)` = `TuneHeating(Kp, Ki, Kd)`. -/
def Tune (s : PID) (Kp Ki Kd : ℚ) : EspErr × PID := TuneHeating s Kp Ki Kd

/-- `PID::SetDerivativeFilterTime`. -/
def SetDerivativeFilterTime (s : PID) (filterTimeSeconds : ℚ) : EspErr × PID :=
  if filterTimeSeconds < 0 then (.invalidArg, s)
  else (.ok, { s with derivativeFilterTime := filterTimeSeconds })

/-- `PID::SetSetpointWeight`. -/
def SetSetpointWeight (s : PID) (weight : ℚ) : EspErr × PID :=
  if weight < 0 ∨ 1 < weight then (.invalidArg, s)
  else (.ok, { s with setpointWeight := weight })

/-- `PID::SetIntegralZoneC`. -/
def SetIntegralZoneC (s : PID) (zoneC : ℚ) : EspErr × PID :=
  if zoneC < 0 then (.invalidArg, s)
  else (.ok, { s with integralZoneC := zoneC })

/-- `PID::SetIntegralLeakTimeSeconds`. -/
def SetIntegralLeakTimeSeconds (s : PID) (leakTimeSeconds : ℚ) : EspErr × PID :=
  if leakTimeSeconds < 0 then (.invalidArg, s)
  else (.ok, { s with integralLeakTimeSeconds := leakTimeSeconds })

end PID

theorem pid_output_bounds (expNeg : ℚ → ℚ) (s : PID) (sp pv dt : ℚ) :
    PID.OutputMin ≤ PID.outputOf expNeg s sp pv dt ∧
      PID.outputOf expNeg s sp pv dt ≤ PID.OutputMax := by
  constructor
  · exact clampQ_ge _ _ _ (by norm_num [PID.OutputMin, PID.OutputMax])
  · exact clampQ_le _ _ _

theorem pid_calculate_snd (expNeg : ℚ → ℚ) (s : PID) (sp pv dtRaw : ℚ) :
    (PID.Calculate expNeg s sp pv dtRaw).2 =
      PID.outputOf expNeg s sp pv (PID.dtOf s dtRaw) := rfl

/-! ## Controller (src/main/src/Controller.cpp, src/main/include/Controller.hpp)

Hardware relay/servo writes and `SettingsManager` persistence always succeed
in the model and do not appear in the state.  The thermocouple port appears as
an argument `readings : Int → ℚ` of the tick. -/

/-- Constants from `Controller.hpp`. -/
def TICK_INTERVAL_MS : ℚ := 250

def MAX_SETPOINT : ℚ := 300

def MIN_SETPOINT : ℚ := 0

def MIN_PROCESS_VALUE : ℚ := -100

def MAX_PROCESS_VALUE : ℚ := 300

/-- The sensor-failure sentinel returned by the thermocouple port. -/
def SENSOR_ERROR : ℚ := -3000

/-- Mutable state of the `Controller` singleton.  `unordered_map<int,double>`
fields are modelled as association lists, `vector<int>` as `List Int`.
Defaults are the member initializers in `Controller.hpp` (the constructor then
overwrites tuning from settings; the model keeps the header defaults, and all
theorems quantify over arbitrary states). -/
structure Ctrl where
  pid : PID := {}
  running : Bool := false
  state : String := "Idle"
  alarming : Bool := false
  doorOpen : Bool := false
  setpointLockedByProfile : Bool := false
  setPoint : ℚ := 0
  processValue : ℚ := 0
  filteredProcessValue : ℚ := 0
  hasFilteredProcessValue : Bool := false
  PIDOutput : ℚ := 0
  inputFilterTimeMs : ℚ := 100
  inputsBeingUsed : List Int := [0]
  relaysPWM : List (Int × ℚ) := [(0, 1), (1, 1/2)]
  relayPWMCycleAccumulators : List (Int × ℚ) := []
  relaysWhenControllerRunning : List Int := [2]
  deriving DecidableEq, Repr

namespace Ctrl

/-- `Controller::Start` (hardware relay writes and `relayPWM.Start()` succeed
in the model; `doorPreviewActive` is door-only state, not modelled). -/
def Start (s : Ctrl) : EspErr × Ctrl :=
  if s.alarming || s.running then (.invalidState, s)
  else (.ok, { s with running := true, state := "Steady State" })

/-- `Controller::Stop` (relay writes and PWM stop succeed in the model). -/
def Stop (s : Ctrl) : EspErr × Ctrl :=
  if !s.running then (.invalidState, s)
  else (.ok, { s with running := false, state := "Idle", PIDOutput := 0 })

/-- `Controller::SetSetPoint` (user-facing, honours the profile lock). -/
def SetSetPoint (s : Ctrl) (newSetPoint : ℚ) : EspErr × Ctrl :=
  if newSetPoint < MIN_SETPOINT ∨ MAX_SETPOINT < newSetPoint then (.invalidArg, s)
  else if s.setpointLockedByProfile then (.invalidState, s)
  else (.ok, { s with setPoint := newSetPoint })

/-- `Controller::SetSetPointFromProfile` (bypasses the profile lock). -/
def SetSetPointFromProfile (s : Ctrl) (newSetPoint : ℚ) : EspErr × Ctrl :=
  if newSetPoint < MIN_SETPOINT ∨ MAX_SETPOINT < newSetPoint then (.invalidArg, s)
  else (.ok, { s with setPoint := newSetPoint })

/-- `Controller::SetProfileSetpointLock`. -/
def SetProfileSetpointLock (s : Ctrl) (locked : Bool) : Ctrl :=
  { s with setpointLockedByProfile := locked }

/-- `Controller::AddInputChannel` (settings persistence succeeds). -/
def AddInputChannel (s : Ctrl) (channel : Int) : EspErr × Ctrl :=
  if channel < 0 ∨ 7 < channel then (.invalidArg, s)
  else if channel ∈ s.inputsBeingUsed then (.invalidArg, s)
  else (.ok, { s with inputsBeingUsed := s.inputsBeingUsed ++ [channel] })

/-- `Controller::RemoveInputChannel`. -/
def RemoveInputChannel (s : Ctrl) (channel : Int) : EspErr × Ctrl :=
  if channel ∈ s.inputsBeingUsed then
    let rest := s.inputsBeingUsed.erase channel
    (.ok, { s with inputsBeingUsed := if rest.isEmpty then [0] else rest })
  else (.invalidArg, s)

/-- The sanitization loop of `Controller::SetInputChannels`: reject channels
outside `0..7`, drop duplicates keeping the first occurrence. -/
def sanitizeChannels : List Int → List Int → Option (List Int)
  | acc, [] => some acc
  | acc, channel :: rest =>
    if channel < 0 ∨ 7 < channel then none
    else if channel ∈ acc then sanitizeChannels acc rest
    else sanitizeChannels (acc ++ [channel]) rest

/-- `Controller::SetInputChannels`. -/
def SetInputChannels (s : Ctrl) (channels : List Int) : EspErr × Ctrl :=
  if channels.isEmpty then (.invalidArg, s)
  else
    match sanitizeChannels [] channels with
    | none => (.invalidArg, s)
    | some sanitized => (.ok, { s with inputsBeingUsed := sanitized })

/-- `Controller::UpdateProcessValue`: average the non-sentinel readings of the
configured channels, then single-pole low-pass filter them. -/
def UpdateProcessValue (readings : Int → ℚ) (s : Ctrl) : EspErr × Ctrl :=
  let valid := (s.inputsBeingUsed.map readings).filter (fun v => v ≠ SENSOR_ERROR)
  if valid.length = 0 then (.invalidState, s)
  else
    let averagedValue := valid.sum / (valid.length : ℚ)
    let dt := TICK_INTERVAL_MS
    let alpha := dt / (s.inputFilterTimeMs + dt)
    let filteredValue :=
      if s.hasFilteredProcessValue then
        alpha * averagedValue + (1 - alpha) * s.filteredProcessValue
      else averagedValue
    (.ok, { s with
        filteredProcessValue := filteredValue
        hasFilteredProcessValue := true
        processValue := filteredValue })

/-- `Controller::CheckAlarmingConditions`. -/
def CheckAlarmingConditions (s : Ctrl) : Bool :=
  s.processValue < MIN_PROCESS_VALUE || MAX_PROCESS_VALUE < s.processValue

/-- The alarm-flag/label update performed under the lock in
`Controller::Perform` (lines 522-530): latch the alarm on a trip, clear it
otherwise (label `"Idle"` only when not running). -/
def alarmUpdate (shouldAlarm : Bool) (s1 : Ctrl) : Ctrl :=
  if shouldAlarm then { s1 with alarming := true, state := "Alarming" }
  else if s1.alarming then
    let nextLabel := if s1.running then s1.state else "Idle"
    { s1 with alarming := false, state := nextLabel }
  else s1

/-- The state written when `UpdateProcessValue` fails (no valid sensor). -/
def sensorFail (s1 : Ctrl) : Ctrl :=
  { s1 with alarming := true, state := "Sensor Error" }

/-- `Controller::Perform`: sample, alarm-check, and force-stop on a trip.
`wasAlarming`/`wasRunning` are read from the pre-update state `s1` exactly as
in the source (they are captured before the alarm flag is rewritten). -/
def Perform (readings : Int → ℚ) (s : Ctrl) : EspErr × Ctrl :=
  match UpdateProcessValue readings s with
  | (.ok, s1) =>
    let shouldAlarm := CheckAlarmingConditions s1
    let s2 := alarmUpdate shouldAlarm s1
    if shouldAlarm && !s1.alarming && s1.running then (.ok, (Stop s2).2)
    else (.ok, s2)
  | (err, s1) =>
    let s2 := sensorFail s1
    if s2.running then (err, (Stop s2).2) else (err, s2)

/-- `Controller::PerformOnRunning`: run the PID and store its output (relay
duty and servo dispatch touch only hardware). -/
def PerformOnRunning (expNeg : ℚ → ℚ) (dtRaw : ℚ) (s : Ctrl) : EspErr × Ctrl :=
  let r := PID.Calculate expNeg s.pid s.setPoint s.processValue dtRaw
  (.ok, { s with pid := r.1, PIDOutput := r.2 })

/-- `Controller::PerformOnNotRunning`. -/
def PerformOnNotRunning (s : Ctrl) : EspErr × Ctrl :=
  (.ok, { s with PIDOutput := 0 })

/-- `Controller::RunTick`. -/
def RunTick (expNeg : ℚ → ℚ) (readings : Int → ℚ) (dtRaw : ℚ) (s : Ctrl) :
    EspErr × Ctrl :=
  match Perform readings s with
  | (.ok, s1) =>
    if s1.running then PerformOnRunning expNeg dtRaw s1
    else PerformOnNotRunning s1
  | (err, s1) => (err, s1)

end Ctrl

/-! ## Soft PWM (src/main/src/PWM.cpp, src/main/include/PWM.hpp)

Only the duration/edge arithmetic is state of the model; the esp_timer
one-shot timer and the callbacks are ports. -/

/-- State of a `PWM` instance.  `state_` is the `On`/`Off` enum (`isOn`);
`running_` and `timer_armed_` are as in the source. -/
structure PWMState where
  period_ms : ℕ
  duty_cycle : ℚ
  on_ms : ℕ := 0
  off_ms : ℕ := 0
  isOn : Bool := false
  running : Bool := false
  deriving DecidableEq, Repr

namespace PWMState

/-- `PWM::RecomputeDurations`: `on = uint32_t(float(period) * duty + 0.5f)`
(truncation of a non-negative value, i.e. the floor), capped at the period;
`off = period - on`. -/
def RecomputeDurations (w : PWMState) : PWMState :=
  let on0 : ℕ := (⌊(w.period_ms : ℚ) * w.duty_cycle + 1/2⌋).toNat
  let onCapped : ℕ := if w.period_ms < on0 then w.period_ms else on0
  { w with on_ms := onCapped, off_ms := w.period_ms - onCapped }

/-- The `PWM` constructor: sanitize `period_ms == 0` to 1, clamp the duty to
`[0,1]`, compute durations. -/
def init (period_ms : ℕ) (duty_cycle : ℚ) : PWMState :=
  RecomputeDurations
    { period_ms := if period_ms = 0 then 1 else period_ms
      duty_cycle := clampQ duty_cycle 0 1 }

/-- `PWM::SetDutyCycle`. -/
def SetDutyCycle (w : PWMState) (duty_cycle : ℚ) : PWMState :=
  RecomputeDurations { w with duty_cycle := clampQ duty_cycle 0 1 }

/-- `PWM::SetPeriodMs`. -/
def SetPeriodMs (w : PWMState) (period_ms : ℕ) : PWMState :=
  RecomputeDurations
    { w with period_ms := if period_ms = 0 then 1 else period_ms }

/-- The delay chosen by `PWM::ScheduleNextEdge`: the OFF duration while in the
OFF state (next edge turns ON), the ON duration otherwise, floored to 1 ms. -/
def edgeDelayMs (w : PWMState) : ℕ :=
  let delay := if w.isOn then w.on_ms else w.off_ms
  if delay = 0 then 1 else delay

end PWMState


/-! ## Helper lemmas about the controller tick -/

theorem updateProcessValue_fields (readings : Int → ℚ) (s : Ctrl) :
    (Ctrl.UpdateProcessValue readings s).2.PIDOutput = s.PIDOutput ∧
      (Ctrl.UpdateProcessValue readings s).2.running = s.running ∧
      (Ctrl.UpdateProcessValue readings s).2.alarming = s.alarming := by
  unfold Ctrl.UpdateProcessValue
  dsimp only
  split
  · exact ⟨rfl, rfl, rfl⟩
  · exact ⟨rfl, rfl, rfl⟩

theorem stop_pidOutput (x : Ctrl) :
    (Ctrl.Stop x).2.PIDOutput = x.PIDOutput ∨ (Ctrl.Stop x).2.PIDOutput = 0 := by
  unfold Ctrl.Stop
  split
  · exact Or.inl rfl
  · exact Or.inr rfl

theorem stop_running_false (x : Ctrl) (hx : x.running = true) :
    (Ctrl.Stop x).2.running = false := by
  unfold Ctrl.Stop
  rw [hx]
  rfl

theorem stop_alarming (x : Ctrl) : (Ctrl.Stop x).2.alarming = x.alarming := by
  unfold Ctrl.Stop
  split
  · rfl
  · rfl

theorem alarmUpdate_fields (b : Bool) (s1 : Ctrl) :
    (Ctrl.alarmUpdate b s1).PIDOutput = s1.PIDOutput ∧
      (Ctrl.alarmUpdate b s1).running = s1.running := by
  unfold Ctrl.alarmUpdate
  split_ifs <;> exact ⟨rfl, rfl⟩

theorem alarmUpdate_alarming (b : Bool) (s1 : Ctrl) :
    (Ctrl.alarmUpdate b s1).alarming = b := by
  unfold Ctrl.alarmUpdate
  split_ifs with h1 h2 <;> simp_all

theorem sensorFail_fields (s1 : Ctrl) :
    (Ctrl.sensorFail s1).PIDOutput = s1.PIDOutput ∧
      (Ctrl.sensorFail s1).running = s1.running ∧
      (Ctrl.sensorFail s1).alarming = true :=
  ⟨rfl, rfl, rfl⟩

theorem perform_pidOutput (readings : Int → ℚ) (s : Ctrl) :
    (Ctrl.Perform readings s).2.PIDOutput = s.PIDOutput ∨
      (Ctrl.Perform readings s).2.PIDOutput = 0 := by
  have h1 := (updateProcessValue_fields readings s).1
  unfold Ctrl.Perform
  rcases hu : Ctrl.UpdateProcessValue readings s with ⟨err, s1⟩
  rw [hu] at h1
  have hstep : ∀ x : Ctrl, x.PIDOutput = s.PIDOutput →
      (Ctrl.Stop x).2.PIDOutput = s.PIDOutput ∨ (Ctrl.Stop x).2.PIDOutput = 0 := by
    intro x hx
    rcases stop_pidOutput x with h | h
    · exact Or.inl (by rw [h, hx])
    · exact Or.inr h
  cases err
  case ok =>
    dsimp only
    split_ifs with hc
    · exact hstep _ (by rw [(alarmUpdate_fields _ _).1, h1])
    · exact Or.inl (by rw [(alarmUpdate_fields _ _).1, h1])
  all_goals
    dsimp only
    split_ifs with hr
  all_goals
    first
      | exact hstep _ (by rw [(sensorFail_fields s1).1, h1])
      | exact Or.inl (by rw [(sensorFail_fields s1).1, h1])

theorem perform_alarm_inv (readings : Int → ℚ) (s : Ctrl)
    (hinv : s.alarming = true → s.running = false) :
    (Ctrl.Perform readings s).2.alarming = true →
      (Ctrl.Perform readings s).2.running = false := by
  obtain ⟨-, hR, hA⟩ := updateProcessValue_fields readings s
  unfold Ctrl.Perform
  rcases hu : Ctrl.UpdateProcessValue readings s with ⟨err, s1⟩
  rw [hu] at hR hA
  cases err
  case ok =>
    dsimp only
    split_ifs with hc
    · intro _
      apply stop_running_false
      rw [(alarmUpdate_fields _ _).2]
      simp only [Bool.and_eq_true, Bool.not_eq_true'] at hc
      exact hc.2
    · intro ha
      rw [alarmUpdate_alarming] at ha
      rw [(alarmUpdate_fields _ _).2]
      simp only [ha, Bool.and_eq_true, Bool.not_eq_true', true_and, not_and] at hc
      by_cases hal : s1.alarming = true
      · rw [hR]
        exact hinv (hA ▸ hal)
      · simp only [Bool.not_eq_true] at hal
        exact Bool.not_eq_true s1.running ▸ (hc hal)
  all_goals
    dsimp only
    split_ifs with hr
  all_goals
    intro _
    first
      | exact stop_running_false _ hr
      | simpa using hr

theorem runTick_alarm_inv (expNeg : ℚ → ℚ) (readings : Int → ℚ) (dtRaw : ℚ)
    (s : Ctrl) (hinv : s.alarming = true → s.running = false) :
    (Ctrl.RunTick expNeg readings dtRaw s).2.alarming = true →
      (Ctrl.RunTick expNeg readings dtRaw s).2.running = false := by
  have hinv1 := perform_alarm_inv readings s hinv
  unfold Ctrl.RunTick
  rcases hp : Ctrl.Perform readings s with ⟨err, s1⟩
  rw [hp] at hinv1
  cases err
  case ok =>
    dsimp only
    split_ifs with hr1
    · unfold Ctrl.PerformOnRunning
      exact hinv1
    · unfold Ctrl.PerformOnNotRunning
      exact hinv1
  all_goals exact hinv1

theorem runTick_pidOutput_bound (expNeg : ℚ → ℚ) (readings : Int → ℚ)
    (dtRaw : ℚ) (s : Ctrl) (hs : |s.PIDOutput| ≤ 100) :
    |(Ctrl.RunTick expNeg readings dtRaw s).2.PIDOutput| ≤ 100 := by
  have hout := perform_pidOutput readings s
  unfold Ctrl.RunTick
  rcases hp : Ctrl.Perform readings s with ⟨err, s1⟩
  rw [hp] at hout
  cases err
  case ok =>
    dsimp only
    split_ifs with hr1
    · unfold Ctrl.PerformOnRunning
      dsimp only
      rw [pid_calculate_snd]
      have hb := pid_output_bounds expNeg s1.pid s1.setPoint s1.processValue
        (PID.dtOf s1.pid dtRaw)
      rw [abs_le]
      constructor
      · simpa [PID.OutputMin] using hb.1
      · simpa [PID.OutputMax] using hb.2
    · unfold Ctrl.PerformOnNotRunning
      simp
  all_goals
    dsimp only at hout ⊢
    rcases hout with h | h <;> rw [h]
  all_goals first | exact hs | norm_num

/-- C1: every `PID::Calculate` output lies in `[-100, 100]`, and the stored
`pid_output` of the controller stays in `[-100, 100]` across any tick
(`RunTick` either stores a freshly clamped output, stores 0, or leaves the
previously stored value untouched). -/
theorem claim_C1_pid_output_clamped (expNeg : ℚ → ℚ) (readings : Int → ℚ)
    (p : PID) (sp pv dtRaw : ℚ) (s : Ctrl) :
    (-100 ≤ (PID.Calculate expNeg p sp pv dtRaw).2 ∧
        (PID.Calculate expNeg p sp pv dtRaw).2 ≤ 100) ∧
      (|s.PIDOutput| ≤ 100 →
        |(Ctrl.RunTick expNeg readings dtRaw s).2.PIDOutput| ≤ 100) := by
  constructor
  · rw [pid_calculate_snd]
    have hb := pid_output_bounds expNeg p sp pv (PID.dtOf p dtRaw)
    exact ⟨by simpa [PID.OutputMin] using hb.1, by simpa [PID.OutputMax] using hb.2⟩
  · exact runTick_pidOutput_bound expNeg readings dtRaw s

/-- Witness for C1 at a concrete state and inputs. -/
theorem claim_C1_pid_output_clamped_witness :
    |(Ctrl.RunTick (fun _ => 1) (fun _ => 25) 1 {}).2.PIDOutput| ≤ 100 :=
  (claim_C1_pid_output_clamped (fun _ => 1) (fun _ => 25) {} 100 25 1 {}).2
    (by norm_num)

/-- C2: if `alarming → ¬running` holds before a tick it holds after it (any
tick that trips or observes the alarm while running issues `Stop`), and
`Start` is refused with `ESP_ERR_INVALID_STATE` whenever `alarming` is set. -/
theorem claim_C2_alarm_implies_stopped (expNeg : ℚ → ℚ) (readings : Int → ℚ)
    (dtRaw : ℚ) (s : Ctrl) (hinv : s.alarming = true → s.running = false) :
    ((Ctrl.RunTick expNeg readings dtRaw s).2.alarming = true →
        (Ctrl.RunTick expNeg readings dtRaw s).2.running = false) ∧
      (s.alarming = true → Ctrl.Start s = (.invalidState, s)) := by
  refine ⟨runTick_alarm_inv expNeg readings dtRaw s hinv, ?_⟩
  intro ha
  unfold Ctrl.Start
  rw [ha]
  rfl

/-- Witness for C2: an alarming idle controller refuses `Start`. -/
theorem claim_C2_alarm_implies_stopped_witness :
    Ctrl.Start { alarming := true } = (.invalidState, { alarming := true }) :=
  (claim_C2_alarm_implies_stopped (fun _ => 1) (fun _ => 25) 1
    { alarming := true } (by intro _; rfl)).2 rfl

/-- C3: while `setpoint_locked_by_profile` is set, `SetSetPoint` fails with
an invalid-state error (invalid-argument for out-of-range values) and leaves
the whole state, in particular `setpoint_c`, unchanged. -/
theorem claim_C3_setpoint_lock (s : Ctrl) (v : ℚ)
    (h : s.setpointLockedByProfile = true) :
    ((Ctrl.SetSetPoint s v).1 = .invalidState ∨
        (Ctrl.SetSetPoint s v).1 = .invalidArg) ∧
      (Ctrl.SetSetPoint s v).2 = s := by
  unfold Ctrl.SetSetPoint
  rw [if_pos h]
  split_ifs with h1
  · exact ⟨Or.inr rfl, rfl⟩
  · exact ⟨Or.inl rfl, rfl⟩

/-- Witness for C3 at a concrete locked state. -/
theorem claim_C3_setpoint_lock_witness :
    ((Ctrl.SetSetPoint { setpointLockedByProfile := true } 50).1 = .invalidState ∨
        (Ctrl.SetSetPoint { setpointLockedByProfile := true } 50).1 = .invalidArg) ∧
      (Ctrl.SetSetPoint { setpointLockedByProfile := true } 50).2 =
        { setpointLockedByProfile := true } :=
  claim_C3_setpoint_lock { setpointLockedByProfile := true } 50 rfl

/-- Counterexample to C4 as stated: a profile-origin write of `301` does not
take effect at the clamped bound `300`; it is rejected with
`ESP_ERR_INVALID_ARG` and `setpoint_c` stays unchanged. -/
theorem claim_C4_counterexample :
    Ctrl.SetSetPointFromProfile ({} : Ctrl) 301 = (.invalidArg, {}) ∧
      (Ctrl.SetSetPointFromProfile ({} : Ctrl) 301).2.setPoint ≠ 300 := by
  constructor
  · rfl
  · decide

/-- C4 (amended): `SetSetPointFromProfile` ignores the setpoint lock; an
in-range value is written verbatim and out-of-range values are rejected with
`ESP_ERR_INVALID_ARG`, leaving the state unchanged (no clamping happens). -/
theorem claim_C4_profile_setpoint (s : Ctrl) (v : ℚ) :
    (MIN_SETPOINT ≤ v ∧ v ≤ MAX_SETPOINT →
        Ctrl.SetSetPointFromProfile s v = (.ok, { s with setPoint := v })) ∧
      (v < MIN_SETPOINT ∨ MAX_SETPOINT < v →
        Ctrl.SetSetPointFromProfile s v = (.invalidArg, s)) := by
  unfold Ctrl.SetSetPointFromProfile
  constructor
  · intro ⟨h1, h2⟩
    rw [if_neg]
    push_neg
    exact ⟨h1, h2⟩
  · intro h
    rw [if_pos h]

/-- Witness for C4 (amended): the lock does not stop a profile write. -/
theorem claim_C4_profile_setpoint_witness :
    Ctrl.SetSetPointFromProfile { setpointLockedByProfile := true } 250 =
      (.ok, { setpointLockedByProfile := true, setPoint := 250 }) :=
  (claim_C4_profile_setpoint { setpointLockedByProfile := true } 250).1
    (by norm_num [MIN_SETPOINT, MAX_SETPOINT])

/-- Counterexample to C5 as stated: `TuneHeating` accepts negative gains
(returns `ESP_OK` and stores them) instead of rejecting them. -/
theorem claim_C5_counterexample :
    (PID.TuneHeating ({} : PID) (-1) (-1) (-1)).1 = .ok ∧
      (PID.TuneHeating ({} : PID) (-1) (-1) (-1)).2.heatingKp = -1 ∧
      (PID.TuneCooling ({} : PID) (-2) (-2) (-2)).1 = .ok ∧
      (PID.TuneCooling ({} : PID) (-2) (-2) (-2)).2.coolingKp = -2 := by
  refine ⟨rfl, by norm_num [PID.TuneHeating], rfl, by norm_num [PID.TuneCooling]⟩

/-- C5 (amended): `TuneHeating` and `TuneCooling` perform no validation at
all — any gains, negative included, are stored and `ESP_OK` is returned —
while `SetSetpointWeight` accepts exactly the weights in `[0,1]` and rejects
everything else with `ESP_ERR_INVALID_ARG`, leaving the weight unchanged. -/
theorem claim_C5_tuning_validation (s : PID) (kp ki kd w : ℚ) :
    PID.TuneHeating s kp ki kd =
        (.ok, { s with heatingKp := kp, heatingKi := ki, heatingKd := kd }) ∧
      PID.TuneCooling s kp ki kd =
        (.ok, { s with coolingKp := kp, coolingKi := ki, coolingKd := kd }) ∧
      (0 ≤ w ∧ w ≤ 1 →
        PID.SetSetpointWeight s w = (.ok, { s with setpointWeight := w })) ∧
      (w < 0 ∨ 1 < w → PID.SetSetpointWeight s w = (.invalidArg, s)) := by
  refine ⟨rfl, rfl, ?_, ?_⟩
  · intro ⟨h1, h2⟩
    unfold PID.SetSetpointWeight
    rw [if_neg]
    push_neg
    exact ⟨h1, h2⟩
  · intro h
    unfold PID.SetSetpointWeight
    rw [if_pos h]

/-- Witness for C5 (amended) at concrete gains and weight. -/
theorem claim_C5_tuning_validation_witness :
    PID.SetSetpointWeight ({} : PID) (3/4) = (.ok, { setpointWeight := 3/4 }) :=
  (claim_C5_tuning_validation {} (-2) (-3) (-4) (3/4)).2.2.1 (by norm_num)

/-- C8: for a positive period and a duty in `[0,1]`, `RecomputeDurations`
sets the ON duration to `round(period * duty)` milliseconds (the computed
value never exceeds the period, so the defensive cap is inactive), the OFF
duration to the remainder of the period, and `ScheduleNextEdge` floors a
0 ms edge delay to 1 ms. -/
theorem claim_C8_pwm_durations (w : PWMState) (hp : 0 < w.period_ms)
    (h0 : 0 ≤ w.duty_cycle) (h1 : w.duty_cycle ≤ 1) :
    ((PWMState.RecomputeDurations w).on_ms : ℤ) =
        round ((w.period_ms : ℚ) * w.duty_cycle) ∧
      (PWMState.RecomputeDurations w).off_ms =
        w.period_ms - (PWMState.RecomputeDurations w).on_ms ∧
      (PWMState.RecomputeDurations w).on_ms ≤ w.period_ms ∧
      PWMState.edgeDelayMs w =
        max 1 (if w.isOn = true then w.on_ms else w.off_ms) := by
  have hnn : (0 : ℚ) ≤ (w.period_ms : ℚ) * w.duty_cycle := by positivity
  have hfl0 : 0 ≤ ⌊(w.period_ms : ℚ) * w.duty_cycle + 1/2⌋ := by
    apply Int.floor_nonneg.2
    linarith
  have hflle : ⌊(w.period_ms : ℚ) * w.duty_cycle + 1/2⌋ ≤ (w.period_ms : ℤ) := by
    have hle : (w.period_ms : ℚ) * w.duty_cycle + 1/2 ≤ (w.period_ms : ℚ) + 1/2 := by
      have := mul_le_of_le_one_right (by positivity : (0:ℚ) ≤ (w.period_ms : ℚ)) h1
      linarith
    have hper : ⌊(w.period_ms : ℚ) + 1/2⌋ = (w.period_ms : ℤ) := by
      rw [Int.floor_eq_iff]
      constructor
      · push_cast
        linarith
      · push_cast
        linarith
    calc ⌊(w.period_ms : ℚ) * w.duty_cycle + 1/2⌋
        ≤ ⌊(w.period_ms : ℚ) + 1/2⌋ := Int.floor_le_floor hle
      _ = (w.period_ms : ℤ) := hper
  have hcap : ¬ w.period_ms < (⌊(w.period_ms : ℚ) * w.duty_cycle + 1/2⌋).toNat := by
    rw [not_lt]
    omega
  have hon : (PWMState.RecomputeDurations w).on_ms =
      (⌊(w.period_ms : ℚ) * w.duty_cycle + 1/2⌋).toNat := by
    unfold PWMState.RecomputeDurations
    dsimp only
    rw [if_neg hcap]
  have hoff : (PWMState.RecomputeDurations w).off_ms =
      w.period_ms - (⌊(w.period_ms : ℚ) * w.duty_cycle + 1/2⌋).toNat := by
    unfold PWMState.RecomputeDurations
    dsimp only
    rw [if_neg hcap]
  refine ⟨?_, ?_, ?_, ?_⟩
  · rw [hon, Int.toNat_of_nonneg hfl0, round_eq]
  · rw [hoff, hon]
  · rw [hon]
    omega
  · unfold PWMState.edgeDelayMs
    dsimp only
    rcases hd : (if w.isOn = true then w.on_ms else w.off_ms) with _ | d
    · simp
    · simp only [Nat.succ_ne_zero, if_false]
      exact (Nat.max_eq_right (by omega)).symm

/-- Witness for C8 at period 1000 ms and duty 0.3. -/
theorem claim_C8_pwm_durations_witness :
    ((PWMState.RecomputeDurations
          { period_ms := 1000, duty_cycle := 3/10 }).on_ms : ℤ) =
      round ((1000 : ℚ) * (3/10)) :=
  (claim_C8_pwm_durations { period_ms := 1000, duty_cycle := 3/10 }
    (by norm_num) (by norm_num) (by norm_num)).1

theorem sanitizeChannels_eq_eraseDups :
    ∀ (l acc : List Int), (∀ x ∈ l, ¬(x < 0 ∨ 7 < x)) →
      Ctrl.sanitizeChannels acc l = some (List.eraseDups.loop l acc.reverse) := by
  intro l
  induction l with
  | nil =>
    intro acc _
    simp [Ctrl.sanitizeChannels, List.eraseDups.loop]
  | cons c rest ih =>
    intro acc h
    have hc := h c (List.mem_cons_self c rest)
    have hrest : ∀ x ∈ rest, ¬(x < 0 ∨ 7 < x) :=
      fun x hx => h x (List.mem_cons_of_mem c hx)
    unfold Ctrl.sanitizeChannels
    rw [if_neg hc]
    by_cases hmem : c ∈ acc
    · rw [if_pos hmem, ih acc hrest]
      simp [List.eraseDups.loop, hmem]
    · rw [if_neg hmem, ih (acc ++ [c]) hrest]
      simp [List.eraseDups.loop, hmem, List.reverse_append]

/-- C10: `AddInputChannel` rejects an already-present channel with
`ESP_ERR_INVALID_ARG` and leaves the state unchanged, while
`SetInputChannels` accepts a duplicate-carrying list of valid channels,
silently de-duplicating it to the first occurrence of each channel in order
(`List.eraseDups`) and returning success. -/
theorem claim_C10_channel_duplicates (s : Ctrl) (c : Int) (channels : List Int) :
    (c ∈ s.inputsBeingUsed → Ctrl.AddInputChannel s c = (.invalidArg, s)) ∧
      (channels ≠ [] → (∀ x ∈ channels, 0 ≤ x ∧ x ≤ 7) →
        Ctrl.SetInputChannels s channels =
          (.ok, { s with inputsBeingUsed := channels.eraseDups })) := by
  constructor
  · intro hmem
    unfold Ctrl.AddInputChannel
    rw [if_pos hmem]
    split_ifs with h1
    · rfl
    · rfl
  · intro hne hvalid
    have hvalid' : ∀ x ∈ channels, ¬(x < 0 ∨ 7 < x) := by
      intro x hx
      have := hvalid x hx
      push_neg
      exact ⟨this.1, this.2⟩
    unfold Ctrl.SetInputChannels
    rw [if_neg (by simpa [List.isEmpty_iff] using hne)]
    rw [sanitizeChannels_eq_eraseDups channels [] hvalid']
    rfl

/-- Witness for C10 at a concrete duplicate-carrying list. -/
theorem claim_C10_channel_duplicates_witness :
    Ctrl.AddInputChannel {} 0 = (.invalidArg, {}) ∧
      Ctrl.SetInputChannels {} [3, 2, 3, 2, 5] =
        (.ok, { inputsBeingUsed := [3, 2, 5] }) := by
  constructor
  · exact (claim_C10_channel_duplicates {} 0 [3, 2, 3, 2, 5]).1 (by decide)
  · have h := (claim_C10_channel_duplicates {} 0 [3, 2, 3, 2, 5]).2
      (by decide) (by decide)
    rw [h]
    rfl

theorem pid_calculate_integral (expNeg : ℚ → ℚ) (s : PID) (sp pv dtRaw : ℚ) :
    (PID.Calculate expNeg s sp pv dtRaw).1.integral =
      PID.integralBackCalcOf expNeg s sp pv (PID.dtOf s dtRaw) := rfl

